import Mathlib

/-!
Verification of the sodalite browser client's synchronization core.

The development shallowly embeds the state and event handlers of:
* `src/frontend/context/HealthCheckContext.tsx` together with the
  `useWebSocket` hook (`src/unnamed/part_012`) — namespaces `HC` and `WS`;
* `src/frontend/context/DownloadContext.tsx` (the phase/outcome job
  registry) — namespace `DC`;
* the progress-estimate variant of the download registry
  (`src/unnamed/part_001`) — namespace `P1`.

React `useState` cells become record fields; each `setX` call inside an
event handler becomes a functional update; an event handler becomes a
total function `State → Event → State`.  JavaScript numbers used for
progress estimates are embedded as rationals; timestamps (`new Date()`)
as abstract naturals supplied with the event.  A fallible parse
(`JSON.parse` under try/catch) is embedded as an `Option` input.
-/

namespace Sodalite

/-- The server's coarse job status (`ProcessResponse.status` in
`src/frontend/lib/api.ts`). -/
inductive Status
  | processing
  | completed
  | failed
deriving DecidableEq, Repr

/-- The client-visible granular job phase (`Task.phase` in
`src/frontend/context/DownloadContext.tsx`). -/
inductive Phase
  | initializing
  | downloading
  | processing
  | completed
  | failed
deriving DecidableEq, Repr

namespace HC

/-- The `useState` cells of `HealthCheckProvider` plus the `isConnected`
cell of the `useWebSocket` hook it consumes.  `lastChecked` is the
`Date | null` cell, embedded as an abstract timestamp. -/
structure HealthState where
  isServerOnline : Bool
  isConnecting : Bool
  lastChecked : Option Nat
  wsConnected : Bool
deriving DecidableEq, Repr

/-- Initial state: `useState(false)`, `useState(true)`, `useState(null)`,
and the hook's `useState(false)` for `isConnected`. -/
def initState : HealthState :=
  { isServerOnline := false
    isConnecting := true
    lastChecked := none
    wsConnected := false }

/-- Events observed by `HealthCheckProvider`:
* `probeResult st now` — `sodaliteAPI.healthCheck()` resolved with
  `{ status: st }` at time `now`;
* `probeErr` — `sodaliteAPI.healthCheck()` rejected (the `catch` branch);
* `wsConnect now` — the hook's `isConnected` flipped to `true`, re-running
  the `[isConnected]` effect at time `now`;
* `wsDisc` — `isConnected` flipped to `false` (the `[isConnected]` effect
  re-runs but its `if (isConnected)` guard is false). -/
inductive HEvent
  | probeResult (st : String) (now : Nat)
  | probeErr
  | wsConnect (now : Nat)
  | wsDisc
deriving DecidableEq, Repr

/-- One event-handler execution of `HealthCheckProvider`
(`src/frontend/context/HealthCheckContext.tsx`, lines 40–69). -/
def step (s : HealthState) : HEvent → HealthState
  | .probeResult st now =>
      if st = "ok" then
        { s with isServerOnline := true, isConnecting := false, lastChecked := some now }
      else
        s
  | .probeErr =>
      { s with isServerOnline := false, isConnecting := false }
  | .wsConnect now =>
      { s with wsConnected := true, isServerOnline := true, isConnecting := false,
               lastChecked := some now }
  | .wsDisc =>
      { s with wsConnected := false }

/-- Run a sequence of events from a state. -/
def runH (s : HealthState) (es : List HEvent) : HealthState :=
  es.foldl step s

/-- An event is a positive signal when it is a successful probe or a
channel-connected transition. -/
def positive : HEvent → Prop
  | .probeResult st _ => st = "ok"
  | .wsConnect _ => True
  | _ => False

instance (e : HEvent) : Decidable (positive e) := by
  cases e <;> simp [positive] <;> infer_instance

end HC

end Sodalite

namespace Sodalite.HC

/-- C1: the claim states that in every monitor state with the push channel
connected, a probe failure leaves `isOnline` true.  Counterexample: from
the initial state a channel-connect event at time 10 yields a reachable
state whose `wsConnected` is true, yet processing a probe failure there
sets `isServerOnline` to false — the `catch` branch of `checkStatus`
writes `setIsServerOnline(false)` without consulting the channel. -/
theorem c1_counterexample :
    (runH initState [HEvent.wsConnect 10]).wsConnected = true ∧
    (runH initState [HEvent.wsConnect 10, HEvent.probeErr]).isServerOnline = false := by
  decide

/-- C1 (amended): processing a liveness-probe failure sets
`isServerOnline` to false in every monitor state, even when the push
channel is connected (last-writer-wins, not OR); the failure leaves the
channel's own connected flag unchanged.  `isServerOnline` is restored to
true by a probe success and by a channel-connect event, and only by
those: any event after which `isServerOnline` is true either found it
already true or is a positive signal. -/
theorem c1_probe_failure_forces_offline (s : HealthState) (now : Nat) :
    (step s HEvent.probeErr).isServerOnline = false ∧
    (step s HEvent.probeErr).wsConnected = s.wsConnected ∧
    (step s (HEvent.probeResult "ok" now)).isServerOnline = true ∧
    (step s (HEvent.wsConnect now)).isServerOnline = true ∧
    (∀ e : HEvent, (step s e).isServerOnline = true →
      s.isServerOnline = true ∨ positive e) := by
  refine ⟨rfl, rfl, rfl, rfl, fun e honline => ?_⟩
  cases e with
  | probeResult st now =>
      by_cases hok : st = "ok"
      · exact Or.inr hok
      · exact Or.inl (by simpa [step, hok] using honline)
  | probeErr => exact absurd honline (by simp [step])
  | wsConnect now => exact Or.inr trivial
  | wsDisc => exact Or.inl (by simpa [step] using honline)

/-- Witness for `c1_probe_failure_forces_offline`: its exclusivity
conjunct applied at the cold-start state and a successful probe, whose
hypothesis is discharged concretely. -/
theorem c1_probe_failure_forces_offline_witness :
    initState.isServerOnline = true ∨ positive (HEvent.probeResult "ok" 5) :=
  (c1_probe_failure_forces_offline initState 5).2.2.2.2
    (HEvent.probeResult "ok" 5) (by decide)

/-- C5: the claim states that `isConnecting` remains true until the first
positive signal (probe success or channel connect) has been observed.
Counterexample: from the initial state, the single-event trace consisting
of one probe failure — which is not a positive signal — already drives
`isConnecting` to false, because the `catch` branch of `checkStatus` also
runs `setIsConnecting(false)`. -/
theorem c5_counterexample :
    initState.isConnecting = true ∧
    ¬ positive HEvent.probeErr ∧
    (runH initState [HEvent.probeErr]).isConnecting = false := by
  decide

/-- C5 (amended): `isConnecting` is true at cold start and becomes false
permanently on the first completed probe — success or failure alike — or
on the first channel-connected event; a probe failure also ends the
connecting state, not only a positive signal.  Once false, no event ever
sets it back to true. -/
theorem c5_connecting_one_shot :
    initState.isConnecting = true ∧
    (∀ (s : HealthState) (now : Nat),
      (step s (HEvent.probeResult "ok" now)).isConnecting = false) ∧
    (∀ s : HealthState, (step s HEvent.probeErr).isConnecting = false) ∧
    (∀ (s : HealthState) (now : Nat),
      (step s (HEvent.wsConnect now)).isConnecting = false) ∧
    (∀ (s : HealthState) (e : HEvent),
      s.isConnecting = false → (step s e).isConnecting = false) := by
  refine ⟨rfl, fun s now => rfl, fun s => rfl, fun s now => rfl, fun s e h => ?_⟩
  cases e with
  | probeResult st now =>
      by_cases hok : st = "ok" <;> simp [step, hok, h]
  | probeErr => rfl
  | wsConnect now => rfl
  | wsDisc => simpa [step] using h

/-- Witness for `c5_connecting_one_shot`: its final conjunct applied at a
concrete state in which `isConnecting` is already false. -/
theorem c5_connecting_one_shot_witness :
    (step (step initState HEvent.probeErr) HEvent.wsDisc).isConnecting = false :=
  c5_connecting_one_shot.2.2.2.2 (step initState HEvent.probeErr) HEvent.wsDisc (by decide)

/-- C6: a probe failure leaves `lastChecked` exactly as it was — the
`catch` branch never writes it — and likewise a channel disconnect and a
probe that resolves with a non-ok status leave it unchanged; every event
that changes `lastChecked` is a positive signal (probe success or channel
connect). -/
theorem c6_lastChecked_never_rewound (s : HealthState) :
    (step s HEvent.probeErr).lastChecked = s.lastChecked ∧
    (step s HEvent.wsDisc).lastChecked = s.lastChecked ∧
    (∀ e : HEvent, (step s e).lastChecked = s.lastChecked ∨ positive e) := by
  refine ⟨rfl, rfl, fun e => ?_⟩
  cases e with
  | probeResult st now =>
      by_cases hok : st = "ok"
      · exact Or.inr hok
      · exact Or.inl (by simp [step, hok])
  | probeErr => exact Or.inl rfl
  | wsConnect now => exact Or.inr trivial
  | wsDisc => exact Or.inl rfl

end Sodalite.HC

namespace Sodalite.WS

/-- An inbound push-channel frame as typed by `WebSocketMessage` in the
`useWebSocket` hook (`src/unnamed/part_012`): a tag plus four optional
statistics fields (`undefined` embedded as `none`). -/
structure WSMessage where
  type : String
  heartbeats : Option Nat := none
  connected_clients : Option Nat := none
  total_conversions : Option Nat := none
  total_bandwidth_mb : Option ℚ := none
deriving DecidableEq, Repr

/-- The hook's state: the `stats` record (each field `number | null`,
embedded as `Option`) and the `isConnected` flag. -/
structure WSState where
  heartbeats : Option Nat
  connectedClients : Option Nat
  totalConversions : Option Nat
  totalBandwidthMB : Option ℚ
  isConnected : Bool
deriving DecidableEq, Repr

/-- The `ws.onmessage` handler (`src/unnamed/part_012`, lines 148–168).
The whole body is wrapped in try/catch, so the handler is a total
function: a frame that fails `JSON.parse` is embedded as `none` and
produces no state change (the `catch` only logs).  A `ping`-tagged
message returns early; a `stats`-tagged message replaces the stats record
wholesale via `field ?? null`; any other tag falls through unchanged. -/
def handleFrame (s : WSState) : Option WSMessage → WSState
  | none => s
  | some m =>
      if m.type = "ping" then s
      else if m.type = "stats" then
        { s with heartbeats := m.heartbeats
                 connectedClients := m.connected_clients
                 totalConversions := m.total_conversions
                 totalBandwidthMB := m.total_bandwidth_mb }
      else s

end Sodalite.WS

namespace Sodalite.WS

/-- C8: a frame tagged `ping` — whatever payload fields it carries — and
a frame that fails to parse both leave the hook's state exactly as it
was: every statistics field and the connection flag keep their values.
`handleFrame` being a total function embeds the handler's try/catch:
a malformed frame never propagates an exception. -/
theorem c8_ping_and_malformed_ignored (s : WSState) (m : WSMessage)
    (hping : m.type = "ping") :
    handleFrame s none = s ∧ handleFrame s (some m) = s := by
  refine ⟨rfl, ?_⟩
  simp [handleFrame, hping]

/-- Witness for `c8_ping_and_malformed_ignored` at a concrete state and a
concrete ping frame that even carries a stats payload. -/
theorem c8_ping_and_malformed_ignored_witness :
    handleFrame
        { heartbeats := some 3, connectedClients := some 1,
          totalConversions := some 7, totalBandwidthMB := some 12,
          isConnected := true } none =
      { heartbeats := some 3, connectedClients := some 1,
        totalConversions := some 7, totalBandwidthMB := some 12,
        isConnected := true } ∧
    handleFrame
        { heartbeats := some 3, connectedClients := some 1,
          totalConversions := some 7, totalBandwidthMB := some 12,
          isConnected := true }
        (some { type := "ping", heartbeats := some 99 }) =
      { heartbeats := some 3, connectedClients := some 1,
        totalConversions := some 7, totalBandwidthMB := some 12,
        isConnected := true } :=
  c8_ping_and_malformed_ignored
    { heartbeats := some 3, connectedClients := some 1,
      totalConversions := some 7, totalBandwidthMB := some 12,
      isConnected := true }
    { type := "ping", heartbeats := some 99 } rfl

/-- C10: applying a `stats`-tagged frame replaces the entire statistics
snapshot rather than merging: each field of the resulting state equals
the frame's corresponding field (so a field absent from the frame becomes
`none`, discarding whatever was held before), and only the connection
flag survives from the previous state. -/
theorem c10_stats_frame_replaces_snapshot (s : WSState) (m : WSMessage)
    (hstats : m.type = "stats") :
    handleFrame s (some m) =
      { heartbeats := m.heartbeats
        connectedClients := m.connected_clients
        totalConversions := m.total_conversions
        totalBandwidthMB := m.total_bandwidth_mb
        isConnected := s.isConnected } := by
  simp [handleFrame, hstats]

/-- Witness for `c10_stats_frame_replaces_snapshot`: a partial stats
frame carrying only `heartbeats` erases the three other previously held
statistics. -/
theorem c10_stats_frame_replaces_snapshot_witness :
    handleFrame
        { heartbeats := some 3, connectedClients := some 1,
          totalConversions := some 7, totalBandwidthMB := some 12,
          isConnected := true }
        (some { type := "stats", heartbeats := some 8 }) =
      { heartbeats := some 8, connectedClients := none,
        totalConversions := none, totalBandwidthMB := none,
        isConnected := true } :=
  c10_stats_frame_replaces_snapshot
    { heartbeats := some 3, connectedClients := some 1,
      totalConversions := some 7, totalBandwidthMB := some 12,
      isConnected := true }
    { type := "stats", heartbeats := some 8 } rfl

end Sodalite.WS

namespace Sodalite.DC

/-- The server's response to `POST /sodalite/process` (`ProcessResponse`
in `src/frontend/lib/api.ts`). -/
structure ProcResponse where
  task_id : String
  status : Status
  download_url : Option String := none
  error : Option String := none
deriving DecidableEq, Repr

/-- The response of `GET /sodalite/task/{id}/phase` (`TaskPhase` in
`src/frontend/lib/api.ts`). -/
structure PhaseResponse where
  task_id : String
  phase : Phase
  status : Status
deriving DecidableEq, Repr

/-- The response of `GET /sodalite/task/{id}` as consumed by the
reconciliation step of `DownloadProvider` (status, download link, error,
and the optional size/quality fields it copies). -/
structure FinalResponse where
  status : Status
  download_url : Option String := none
  error : Option String := none
  file_size_mb : Option ℚ := none
  video_quality : Option String := none
  audio_quality : Option String := none
deriving DecidableEq, Repr

/-- A tracked job (`Task` in `src/frontend/context/DownloadContext.tsx`):
the spread `ProcessResponse` fields plus the registry's own fields. -/
structure Task where
  task_id : String
  status : Status
  download_url : Option String := none
  error : Option String := none
  fileName : String
  phase : Phase
  service : String
  format : String
  thumbnail_url : Option String := none
  file_size_mb : Option ℚ := none
  video_quality : Option String := none
  audio_quality : Option String := none
deriving DecidableEq, Repr

/-- `addTask` (lines 116–136): spread the process response, set
`phase: "initializing"`, and prepend to the list. -/
def addTask (resp : ProcResponse) (fileName service fmt : String)
    (thumbnail_url : Option String) (tasks : List Task) : List Task :=
  { task_id := resp.task_id
    status := resp.status
    download_url := resp.download_url
    error := resp.error
    fileName := fileName
    phase := Phase.initializing
    service := service
    format := fmt
    thumbnail_url := thumbnail_url } :: tasks

/-- The `activeTasks` filter of the polling effect (line 46): only jobs
whose `status` is `"processing"` are polled. -/
def activeTasks (tasks : List Task) : List Task :=
  tasks.filter fun t => t.status = Status.processing

/-- The `setTasks` updater applied when a polled phase differs (lines
59–65): an id-keyed map that overwrites `phase` and nothing else. -/
def applyPhaseUpdate (tasks : List Task) (id : String) (newPhase : Phase) :
    List Task :=
  tasks.map fun t => if t.task_id = id then { t with phase := newPhase } else t

/-- The phase-reconciliation step (lines 58–66): the update is issued
only when the returned phase differs from the phase of the `task` object
captured when the poll was issued. -/
def reconcilePhase (tasks : List Task) (captured : Task)
    (resp : PhaseResponse) : List Task :=
  if resp.phase ≠ captured.phase then
    applyPhaseUpdate tasks captured.task_id resp.phase
  else tasks

/-- The `setTasks` updater applied after the full-status fetch (lines
71–89): an id-keyed map that overwrites status, forces the phase to the
matching terminal phase, and copies the result fields. -/
def applyFinalStatus (tasks : List Task) (id : String)
    (fin : FinalResponse) : List Task :=
  tasks.map fun t =>
    if t.task_id = id then
      { t with status := fin.status
               phase := if fin.status = Status.completed then Phase.completed
                        else Phase.failed
               download_url := fin.download_url
               error := fin.error
               file_size_mb := fin.file_size_mb
               video_quality := fin.video_quality
               audio_quality := fin.audio_quality }
    else t

/-- The `setTasks` updater of the `catch` branch (lines 97–108): on a
transport error the job is marked failed with a synthetic error. -/
def applyTransportFailure (tasks : List Task) (id : String) : List Task :=
  tasks.map fun t =>
    if t.task_id = id then
      { t with status := Status.failed
               phase := Phase.failed
               error := some "failed to get status update." }
    else t

/-- `clearTask` (lines 138–140): remove a job unconditionally by id. -/
def clearTask (tasks : List Task) (id : String) : List Task :=
  tasks.filter fun t => t.task_id ≠ id

/-- `clearAllTasks` (lines 142–145): keep only the jobs whose status is
still `"processing"`. -/
def clearAllTasks (tasks : List Task) : List Task :=
  tasks.filter fun t => t.status = Status.processing

/-- The registry's operations, at the granularity of one atomic state
update: an enqueue, one poll reconciliation (phase step or terminal
step), one transport failure, or a clear command. -/
inductive Op
  | enqueue (resp : ProcResponse) (fileName service fmt : String)
      (thumbnail_url : Option String)
  | pollPhase (captured : Task) (resp : PhaseResponse)
  | pollFinal (id : String) (fin : FinalResponse)
  | pollFail (id : String)
  | clearOne (id : String)
  | clearAll

/-- Apply one operation.  Poll results go through the raw id-keyed
`setTasks` updaters exactly as the code applies them: by id alone, with
no check of the job's current outcome — a result that resolves after its
job has turned terminal is still applied. -/
def applyOp (tasks : List Task) : Op → List Task
  | .enqueue resp f sv fm th => addTask resp f sv fm th tasks
  | .pollPhase captured resp => reconcilePhase tasks captured resp
  | .pollFinal id fin => applyFinalStatus tasks id fin
  | .pollFail id => applyTransportFailure tasks id
  | .clearOne id => clearTask tasks id
  | .clearAll => clearAllTasks tasks

/-- Registry states reachable from the empty registry by arbitrary
operations: an enqueue may carry any process response (`addTask` performs
no check on it), and a poll result may be applied at any time, stale or
not (the updaters perform no status check). -/
inductive Reached : List Task → Prop
  | nil : Reached []
  | step {ts : List Task} (op : Op) : Reached ts → Reached (applyOp ts op)

/-- The side conditions of a well-behaved occurrence of an operation,
relative to the registry state it is applied to.  They are descriptions
of a run, not part of the semantics — nothing in the code enforces them:
* an enqueue carries a fresh id (ids are server-assigned unique keys) and
  a response still in `processing` (the documented creation lifecycle);
* a poll result — phase, final status, or transport failure — is applied
  while its job is still present and still in outcome `processing`, i.e.
  the application is not stale. -/
def stepOK (tasks : List Task) : Op → Prop
  | .enqueue resp _ _ _ _ =>
      resp.status = Status.processing ∧ ∀ t ∈ tasks, t.task_id ≠ resp.task_id
  | .pollPhase captured _ =>
      ∃ t ∈ tasks, t.task_id = captured.task_id ∧ t.status = Status.processing
  | .pollFinal id _ =>
      ∃ t ∈ tasks, t.task_id = id ∧ t.status = Status.processing
  | .pollFail id =>
      ∃ t ∈ tasks, t.task_id = id ∧ t.status = Status.processing
  | _ => True

instance (tasks : List Task) (op : Op) : Decidable (stepOK tasks op) := by
  cases op <;> simp only [stepOK] <;> infer_instance

/-- Registry states reachable from the empty registry by runs all of
whose operations satisfy their side conditions. -/
inductive ReachedWF : List Task → Prop
  | nil : ReachedWF []
  | step {ts : List Task} (op : Op) (hop : stepOK ts op) :
      ReachedWF ts → ReachedWF (applyOp ts op)

/-- Terminal phase/outcome agreement: completed jobs display phase
`completed`, failed jobs display phase `failed`. -/
def TerminalAgree (tasks : List Task) : Prop :=
  ∀ t ∈ tasks,
    (t.status = Status.completed → t.phase = Phase.completed) ∧
    (t.status = Status.failed → t.phase = Phase.failed)

instance (tasks : List Task) : Decidable (TerminalAgree tasks) := by
  unfold TerminalAgree; infer_instance

/-- The id an operation enqueues under, when it is an enqueue. -/
def enqueueId : Op → Option String
  | .enqueue resp _ _ _ _ => some resp.task_id
  | _ => none

/-- Runs from a start state all of whose operations satisfy their side
conditions and none of which enqueues a job under the id `j`
(server-assigned ids are never reused). -/
inductive SafeFrom (j : String) : List Task → List Task → Prop
  | refl (ts : List Task) : SafeFrom j ts ts
  | step {ts1 ts2 : List Task} (op : Op) (hop : stepOK ts2 op)
      (hid : enqueueId op ≠ some j) :
      SafeFrom j ts1 ts2 → SafeFrom j ts1 (applyOp ts2 op)

end Sodalite.DC

namespace Sodalite.DC

/-- A concrete job for counterexamples and witnesses. -/
def mkTask (id : String) (st : Status) (ph : Phase) : Task :=
  { task_id := id
    status := st
    fileName := id ++ ".mp4"
    phase := ph
    service := "svc"
    format := "mp4" }

/-- An id-keyed conditional map leaves a list without that id unchanged. -/
theorem map_ite_id (ts : List Task) (j : String) (f : Task → Task)
    (h : ∀ t ∈ ts, t.task_id ≠ j) :
    (ts.map fun t => if t.task_id = j then f t else t) = ts := by
  have h1 : (ts.map fun t => if t.task_id = j then f t else t) = ts.map id :=
    List.map_congr_left fun t ht => by simp [h t ht]
  simpa using h1

/-- An id-keyed conditional map with an id-preserving update keeps the
list of job ids. -/
theorem ids_map_ite (ts : List Task) (j : String) (f : Task → Task)
    (hf : ∀ t, (f t).task_id = t.task_id) :
    ((ts.map fun t => if t.task_id = j then f t else t).map Task.task_id)
      = ts.map Task.task_id := by
  rw [List.map_map]
  refine List.map_congr_left fun t ht => ?_
  by_cases hj : t.task_id = j <;> simp [hj, hf]

theorem terminalAgree_filter (ts : List Task) (p : Task → Bool)
    (h : TerminalAgree ts) : TerminalAgree (ts.filter p) :=
  fun t ht => h t (List.mem_of_mem_filter ht)

theorem nodup_ids_filter (ts : List Task) (p : Task → Bool)
    (h : (ts.map Task.task_id).Nodup) :
    ((ts.filter p).map Task.task_id).Nodup :=
  List.Nodup.sublist ((ts.filter_sublist).map Task.task_id) h

theorem terminalAgree_applyFinalStatus (ts : List Task) (id : String)
    (fin : FinalResponse) (h : TerminalAgree ts) :
    TerminalAgree (applyFinalStatus ts id fin) := by
  intro t' ht'
  simp only [applyFinalStatus] at ht'
  rcases List.mem_map.mp ht' with ⟨t, ht, rfl⟩
  by_cases hc : t.task_id = id
  · simp only [if_pos hc]
    cases fin.status <;> simp
  · simp only [if_neg hc]
    exact h t ht

theorem terminalAgree_applyTransportFailure (ts : List Task) (id : String)
    (h : TerminalAgree ts) :
    TerminalAgree (applyTransportFailure ts id) := by
  intro t' ht'
  simp only [applyTransportFailure] at ht'
  rcases List.mem_map.mp ht' with ⟨t, ht, rfl⟩
  by_cases hc : t.task_id = id
  · simp [if_pos hc]
  · simp only [if_neg hc]
    exact h t ht

theorem terminalAgree_applyPhaseUpdate (ts : List Task) (j : String)
    (p : Phase) (hg : ∃ u ∈ ts, u.task_id = j ∧ u.status = Status.processing)
    (hnd : (ts.map Task.task_id).Nodup) (h : TerminalAgree ts) :
    TerminalAgree (applyPhaseUpdate ts j p) := by
  rcases hg with ⟨u, hu, huid, hust⟩
  intro t' ht'
  simp only [applyPhaseUpdate] at ht'
  rcases List.mem_map.mp ht' with ⟨t, ht, rfl⟩
  by_cases hc : t.task_id = j
  · have heq : t = u := List.inj_on_of_nodup_map hnd ht hu (hc.trans huid.symm)
    have hst : t.status = Status.processing := heq ▸ hust
    simp [if_pos hc, hst]
  · simp only [if_neg hc]
    exact h t ht

/-- The registry invariant carried through well-formed runs: terminal
agreement together with uniqueness of job ids. -/
def RegInv (ts : List Task) : Prop :=
  TerminalAgree ts ∧ (ts.map Task.task_id).Nodup

theorem regInv_applyOp (ts : List Task) (op : Op)
    (hop : stepOK ts op) (h : RegInv ts) :
    RegInv (applyOp ts op) := by
  obtain ⟨hta, hnd⟩ := h
  cases op with
  | enqueue resp f sv fm th =>
      obtain ⟨hst, hfresh⟩ := hop
      constructor
      · intro t ht
        simp only [applyOp, addTask, List.mem_cons] at ht
        rcases ht with rfl | ht
        · constructor <;> intro hc <;> simp [hst] at hc
        · exact hta t ht
      · simp only [applyOp, addTask, List.map_cons]
        have hnm : resp.task_id ∉ ts.map Task.task_id := by
          simp only [List.mem_map, not_exists, not_and]
          exact fun t ht => hfresh t ht
        exact List.nodup_cons.mpr ⟨hnm, hnd⟩
  | pollPhase captured resp =>
      simp only [applyOp, reconcilePhase]
      by_cases hp : resp.phase ≠ captured.phase
      · simp only [if_pos hp]
        refine ⟨terminalAgree_applyPhaseUpdate ts captured.task_id resp.phase
          hop hnd hta, ?_⟩
        have heq := ids_map_ite ts captured.task_id
          (fun t => { t with phase := resp.phase }) (fun t => rfl)
        simp only [applyPhaseUpdate]
        rw [heq]
        exact hnd
      · simp only [if_neg hp]
        exact ⟨hta, hnd⟩
  | pollFinal id fin =>
      simp only [applyOp]
      refine ⟨terminalAgree_applyFinalStatus ts id fin hta, ?_⟩
      have heq := ids_map_ite ts id
        (fun t => { t with
          status := fin.status
          phase := if fin.status = Status.completed then Phase.completed
                   else Phase.failed
          download_url := fin.download_url
          error := fin.error
          file_size_mb := fin.file_size_mb
          video_quality := fin.video_quality
          audio_quality := fin.audio_quality }) (fun t => rfl)
      simp only [applyFinalStatus]
      rw [heq]
      exact hnd
  | pollFail id =>
      simp only [applyOp]
      refine ⟨terminalAgree_applyTransportFailure ts id hta, ?_⟩
      have heq := ids_map_ite ts id
        (fun t => { t with
          status := Status.failed
          phase := Phase.failed
          error := some "failed to get status update." }) (fun t => rfl)
      simp only [applyTransportFailure]
      rw [heq]
      exact hnd
  | clearOne id =>
      exact ⟨terminalAgree_filter ts _ hta, nodup_ids_filter ts _ hnd⟩
  | clearAll =>
      exact ⟨terminalAgree_filter ts _ hta, nodup_ids_filter ts _ hnd⟩

theorem regInv_reachedWF (ts : List Task) (h : ReachedWF ts) : RegInv ts := by
  induction h with
  | nil =>
      exact ⟨fun t ht => absurd ht (by simp), by simp⟩
  | step op hop hr ih =>
      exact regInv_applyOp _ op hop ih

end Sodalite.DC

namespace Sodalite.DC

/-- C2: the claim states that a poll result is applied only if the job is
still present AND still in outcome `processing`, so that a result for a
job already terminal leaves the list unchanged.  Counterexample: the
registry holds the job `"j"` in terminal outcome `completed`, a stale
phase result (issued when the job was still processing with phase
`initializing`) reports phase `downloading` — and the reconciliation
rewrites the terminal job's phase, changing the list: the id-keyed `map`
checks presence only, never the current outcome. -/
theorem c2_counterexample :
    (mkTask "j" Status.completed Phase.completed).status = Status.completed ∧
    reconcilePhase [mkTask "j" Status.completed Phase.completed]
        (mkTask "j" Status.processing Phase.initializing)
        { task_id := "j", phase := Phase.downloading, status := Status.processing }
      ≠ [mkTask "j" Status.completed Phase.completed] := by
  decide

/-- C2 (amended): presence is the only stale-result guard.  A poll result
— phase update, final status, or transport failure — for a job id absent
from the registry leaves the job list unchanged, because the id-keyed
`map` finds no match; a result for a job still present is applied even if
the job is already terminal. -/
theorem c2_removed_job_guard (ts : List Task) (j : String) (p : Phase)
    (fin : FinalResponse) (h : ∀ t ∈ ts, t.task_id ≠ j) :
    applyPhaseUpdate ts j p = ts ∧ applyFinalStatus ts j fin = ts ∧
    applyTransportFailure ts j = ts :=
  ⟨map_ite_id ts j _ h, map_ite_id ts j _ h, map_ite_id ts j _ h⟩

/-- Witness for `c2_removed_job_guard`: a registry holding only job `"a"`
is untouched by results for the removed id `"b"`. -/
theorem c2_removed_job_guard_witness :
    applyPhaseUpdate [mkTask "a" Status.processing Phase.downloading] "b"
        Phase.completed
      = [mkTask "a" Status.processing Phase.downloading] ∧
    applyFinalStatus [mkTask "a" Status.processing Phase.downloading] "b"
        { status := Status.completed }
      = [mkTask "a" Status.processing Phase.downloading] ∧
    applyTransportFailure [mkTask "a" Status.processing Phase.downloading] "b"
      = [mkTask "a" Status.processing Phase.downloading] :=
  c2_removed_job_guard [mkTask "a" Status.processing Phase.downloading] "b"
    Phase.completed { status := Status.completed } (by decide)

/-- The enqueue of a process response that is already terminal. -/
def enqueueTerminalOp : Op :=
  Op.enqueue { task_id := "a", status := Status.completed } "f.mp4" "svc" "mp4" none

/-- The enqueue of a process response still in `processing`. -/
def goodEnqueueOp : Op :=
  Op.enqueue { task_id := "a", status := Status.processing } "f.mp4" "svc" "mp4" none

/-- Reconciliation of job `"a"` to `completed` through the full-status
step. -/
def completeOp : Op :=
  Op.pollFinal "a" { status := Status.completed, download_url := some "X" }

/-- The snapshot of job `"a"` captured when a phase poll was issued,
before the job completed. -/
def staleCapture : Task :=
  { task_id := "a"
    status := Status.processing
    fileName := "f.mp4"
    phase := Phase.initializing
    service := "svc"
    format := "mp4" }

/-- A stale phase result for job `"a"` — issued while the job was still
processing, resolving after it completed. -/
def stalePhaseOp : Op :=
  Op.pollPhase staleCapture
    { task_id := "a", phase := Phase.downloading, status := Status.processing }

/-- C3: the claim states that terminal phase/outcome agreement holds in
every registry state reachable by any sequence of enqueue,
poll-reconciliation, transport-failure and clear operations.  Two
reachable counterexamples: (i) one single enqueue refutes it — `addTask`
spreads the server's process response, whose status may already be
`completed`, while unconditionally setting `phase: "initializing"`; and
(ii) even with a well-formed enqueue and reconciliation to `completed`
(both steps satisfying `stepOK`), a stale phase result applied afterwards
— which the id-only `setTasks` updater does not reject, and which alone
violates `stepOK` — rewrites the completed job's phase to `downloading`.
Both violations pin the two side conditions of the amended claim. -/
theorem c3_counterexample :
    (Reached (applyOp [] enqueueTerminalOp) ∧
      ¬ TerminalAgree (applyOp [] enqueueTerminalOp)) ∧
    (Reached (applyOp (applyOp (applyOp [] goodEnqueueOp) completeOp)
        stalePhaseOp) ∧
      stepOK [] goodEnqueueOp ∧
      stepOK (applyOp [] goodEnqueueOp) completeOp ∧
      ¬ stepOK (applyOp (applyOp [] goodEnqueueOp) completeOp) stalePhaseOp ∧
      ¬ TerminalAgree (applyOp (applyOp (applyOp [] goodEnqueueOp) completeOp)
          stalePhaseOp)) :=
  ⟨⟨Reached.step enqueueTerminalOp Reached.nil, by decide⟩,
    ⟨Reached.step stalePhaseOp (Reached.step completeOp
        (Reached.step goodEnqueueOp Reached.nil)),
      by decide, by decide, by decide, by decide⟩⟩

/-- C3 (amended): terminal phase/outcome agreement holds in every
registry state reachable from the empty registry by runs whose
operations satisfy their side conditions (`stepOK`): every enqueue
carries a fresh job id (ids are unique keys assigned by the server) and
a response whose outcome is still `processing` (the documented
job-creation lifecycle), and every poll result — which the code's
id-only updaters would otherwise apply regardless — is applied while its
job is still present and still in outcome `processing` (no stale
application); clear operations are unrestricted. -/
theorem c3_terminal_agreement (ts : List Task) (h : ReachedWF ts) :
    TerminalAgree ts :=
  (regInv_reachedWF ts h).1

/-- Witness for `c3_terminal_agreement`: enqueue a processing job and
reconcile it to `completed` through the full-status step; the resulting
concrete registry satisfies terminal agreement. -/
theorem c3_terminal_agreement_witness :
    TerminalAgree (applyOp (applyOp [] goodEnqueueOp) completeOp) :=
  c3_terminal_agreement _
    (ReachedWF.step completeOp (by decide)
      (ReachedWF.step goodEnqueueOp (by decide)
        ReachedWF.nil))

/-- Every entry under the id `j` is in outcome `failed`. -/
def JFailed (j : String) (ts : List Task) : Prop :=
  ∀ t ∈ ts, t.task_id = j → t.status = Status.failed

theorem jfailed_after_failure (ts : List Task) (j : String) :
    JFailed j (applyTransportFailure ts j) := by
  intro t' ht' hid
  simp only [applyTransportFailure] at ht'
  rcases List.mem_map.mp ht' with ⟨t, ht, rfl⟩
  by_cases hc : t.task_id = j
  · simp [if_pos hc]
  · simp only [if_neg hc] at hid
    exact absurd hid hc

theorem jfailed_applyOp (j : String) (ts : List Task) (op : Op)
    (hop : stepOK ts op) (hid : enqueueId op ≠ some j) (h : JFailed j ts) :
    JFailed j (applyOp ts op) := by
  cases op with
  | enqueue resp f sv fm th =>
      have hne : resp.task_id ≠ j := by simpa [enqueueId] using hid
      intro t' ht' hidj
      simp only [applyOp, addTask, List.mem_cons] at ht'
      rcases ht' with rfl | ht
      · exact absurd hidj hne
      · exact h t' ht hidj
  | pollPhase captured resp =>
      simp only [applyOp, reconcilePhase]
      by_cases hp : resp.phase ≠ captured.phase
      · simp only [if_pos hp, applyPhaseUpdate]
        intro t' ht' hidj
        rcases List.mem_map.mp ht' with ⟨t, ht, rfl⟩
        by_cases hc : t.task_id = captured.task_id
        · simp only [if_pos hc] at hidj ⊢
          exact h t ht hidj
        · simp only [if_neg hc] at hidj ⊢
          exact h t ht hidj
      · simp only [if_neg hp]
        exact h
  | pollFinal id fin =>
      rcases hop with ⟨u, hu, huid, hust⟩
      have hij : id ≠ j := by
        intro hij
        have := h u hu (huid.trans hij)
        rw [hust] at this
        simp at this
      simp only [applyOp, applyFinalStatus]
      intro t' ht' hidj
      rcases List.mem_map.mp ht' with ⟨t, ht, rfl⟩
      by_cases hc : t.task_id = id
      · simp only [if_pos hc] at hidj
        exact absurd (hc.symm.trans hidj) hij
      · simp only [if_neg hc] at hidj ⊢
        exact h t ht hidj
  | pollFail id =>
      simp only [applyOp, applyTransportFailure]
      intro t' ht' hidj
      rcases List.mem_map.mp ht' with ⟨t, ht, rfl⟩
      by_cases hc : t.task_id = id
      · simp [if_pos hc]
      · simp only [if_neg hc] at hidj ⊢
        exact h t ht hidj
  | clearOne id =>
      intro t' ht' hidj
      simp only [applyOp, clearTask] at ht'
      exact h t' (List.mem_of_mem_filter ht') hidj
  | clearAll =>
      intro t' ht' hidj
      simp only [applyOp, clearAllTasks] at ht'
      exact h t' (List.mem_of_mem_filter ht') hidj

theorem jfailed_safeFrom (j : String) {ts1 ts2 : List Task}
    (hrun : SafeFrom j ts1 ts2) (h : JFailed j ts1) : JFailed j ts2 := by
  induction hrun with
  | refl => exact h
  | step op hop hid hr ih => exact jfailed_applyOp j _ op hop hid ih

end Sodalite.DC

namespace Sodalite.DC

/-- C4: the claim states that after a transport failure no subsequent
polling tick ever issues another poll for the job.  Counterexample: the
full-status updater applies by id with no status check, and the
`getTaskStatus` response type admits outcome `processing`; so a stale
final-status response carrying `processing` — from a full fetch already
in flight when the transport failure was recorded — puts the failed job
back among the polled (`activeTasks`) jobs. -/
theorem c4_counterexample :
    (∀ t ∈ applyTransportFailure
        [mkTask "j" Status.processing Phase.downloading] "j",
      t.task_id = "j" → t.status = Status.failed ∧ t.phase = Phase.failed) ∧
    ∃ t ∈ activeTasks (applyOp
        (applyTransportFailure
          [mkTask "j" Status.processing Phase.downloading] "j")
        (Op.pollFinal "j" { status := Status.processing })),
      t.task_id = "j" := by
  decide

/-- C4 (amended): applying a transport failure for job `j` marks every
entry under `j` with outcome `failed`, phase `failed`, and the synthetic
error `"failed to get status update."`; and after any further run of
registry operations that enqueues no job under the same id (ids are
server-unique) and applies every poll result non-stale — while its job
is still present and in outcome `processing`, which rules out the one
re-activation path, a stale final-status response carrying outcome
`processing` — no entry under `j` is ever again among the polled
(`activeTasks`) jobs, since only jobs with outcome `processing` are
polled and `j` stays `failed`. -/
theorem c4_transport_failure_terminal (ts : List Task) (j : String)
    (ts2 : List Task) (hrun : SafeFrom j (applyTransportFailure ts j) ts2) :
    (∀ t ∈ applyTransportFailure ts j, t.task_id = j →
        t.status = Status.failed ∧ t.phase = Phase.failed ∧
        t.error = some "failed to get status update.") ∧
    ∀ t ∈ activeTasks ts2, t.task_id ≠ j := by
  constructor
  · intro t' ht' hid
    simp only [applyTransportFailure] at ht'
    rcases List.mem_map.mp ht' with ⟨t, ht, rfl⟩
    by_cases hc : t.task_id = j
    · simp [if_pos hc]
    · simp only [if_neg hc] at hid
      exact absurd hid hc
  · have hjf := jfailed_safeFrom j hrun (jfailed_after_failure ts j)
    intro t ht hid
    have hmem : t ∈ ts2 ∧ t.status = Status.processing := by
      simpa [activeTasks, List.mem_filter] using ht
    have hfail := hjf t hmem.1 hid
    rw [hmem.2] at hfail
    simp at hfail

/-- Witness for `c4_transport_failure_terminal`: a one-job registry whose
job fails in transport, followed by a fresh enqueue of a different job
and a bulk clear, both satisfying their side conditions. -/
theorem c4_transport_failure_terminal_witness :
    (∀ t ∈ applyTransportFailure
        [mkTask "j" Status.processing Phase.downloading] "j",
      t.task_id = "j" →
        t.status = Status.failed ∧ t.phase = Phase.failed ∧
        t.error = some "failed to get status update.") ∧
    ∀ t ∈ activeTasks (applyOp (applyOp
        (applyTransportFailure
          [mkTask "j" Status.processing Phase.downloading] "j")
        (Op.enqueue { task_id := "k", status := Status.processing }
          "g.mp4" "svc" "mp4" none))
        Op.clearAll),
      t.task_id ≠ "j" :=
  c4_transport_failure_terminal
    [mkTask "j" Status.processing Phase.downloading] "j" _
    (SafeFrom.step Op.clearAll (by decide) (by decide)
      (SafeFrom.step
        (Op.enqueue { task_id := "k", status := Status.processing }
          "g.mp4" "svc" "mp4" none)
        (by decide) (by decide)
        (SafeFrom.refl _)))

/-- C9: `clearAllTasks` keeps exactly the jobs whose outcome is
`processing`: the result is a sublist of the original list (original
relative order), membership in the result is membership in the original
list with outcome `processing`, and on a concrete three-job registry with
one processing and two terminal jobs exactly the processing job
remains. -/
theorem c9_clearTerminal_keeps_processing :
    (∀ ts : List Task,
      List.Sublist (clearAllTasks ts) ts ∧
      ∀ t : Task, t ∈ clearAllTasks ts ↔
        t ∈ ts ∧ t.status = Status.processing) ∧
    clearAllTasks
        [mkTask "a" Status.processing Phase.downloading,
          mkTask "b" Status.completed Phase.completed,
          mkTask "c" Status.failed Phase.failed]
      = [mkTask "a" Status.processing Phase.downloading] := by
  refine ⟨fun ts => ⟨List.filter_sublist ts, fun t => ?_⟩, by decide⟩
  simp [clearAllTasks, List.mem_filter]

end Sodalite.DC

namespace Sodalite.P1

/-- A tracked job in the progress-estimate variant of the registry
(`Task` in `src/unnamed/part_001`): the spread `ProcessResponse` fields
plus a synthetic `progress` estimate (a JavaScript number, embedded as a
rational). -/
structure Task where
  task_id : String
  status : Status
  download_url : Option String := none
  error : Option String := none
  fileName : String
  progress : ℚ
  service : String
  format : String
  thumbnail_url : Option String := none
deriving DecidableEq, Repr

/-- One step of the 800 ms progress interval for a single job
(`src/unnamed/part_001`, lines 41–54): a job still `processing` with
progress below 95 advances by the bounded random increment, capped at
95; every other job is untouched. -/
def tickTask (inc : ℚ) (t : Task) : Task :=
  if t.status = Status.processing ∧ t.progress < 95 then
    { t with progress := min (t.progress + inc) 95 }
  else t

/-- The whole progress tick: each job advances by its own random
increment (`Math.random() * 5`, abstracted as a per-id value). -/
def progressTick (incs : String → ℚ) (tasks : List Task) : List Task :=
  tasks.map fun t => tickTask (incs t.task_id) t

/-- The status-reconciliation update (`src/unnamed/part_001`, lines
66–84): applied only when the fetched status is no longer `processing`;
an id-keyed map overwriting status, result link and error, and forcing
`progress` to exactly 100 when the status is `completed` (otherwise the
held estimate is kept). -/
def applyStatus (tasks : List Task) (fin : DC.ProcResponse) : List Task :=
  if fin.status ≠ Status.processing then
    tasks.map fun t =>
      if t.task_id = fin.task_id then
        { t with status := fin.status
                 download_url := fin.download_url
                 error := fin.error
                 progress := if fin.status = Status.completed then 100
                             else t.progress }
      else t
  else tasks

/-- `addTask` (lines 105–121): spread the response, start `progress` at
0, and prepend. -/
def addTask (resp : DC.ProcResponse) (fileName service fmt : String)
    (thumbnail_url : Option String) (tasks : List Task) : List Task :=
  { task_id := resp.task_id
    status := resp.status
    download_url := resp.download_url
    error := resp.error
    fileName := fileName
    progress := 0
    service := service
    format := fmt
    thumbnail_url := thumbnail_url } :: tasks

/-- `clearTask` (lines 123–125). -/
def clearTask (tasks : List Task) (id : String) : List Task :=
  tasks.filter fun t => t.task_id ≠ id

/-- `clearAllTasks` (lines 127–129). -/
def clearAllTasks (tasks : List Task) : List Task :=
  tasks.filter fun t => t.status = Status.processing

/-- Operations of the progress-variant registry. -/
inductive Op
  | tick (incs : String → ℚ)
  | final (fin : DC.ProcResponse)
  | enqueue (resp : DC.ProcResponse) (fileName service fmt : String)
      (thumbnail_url : Option String)
  | clearOne (id : String)
  | clearAll

/-- Apply one operation. -/
def applyOp (tasks : List Task) : Op → List Task
  | .tick incs => progressTick incs tasks
  | .final fin => applyStatus tasks fin
  | .enqueue resp f sv fm th => addTask resp f sv fm th tasks
  | .clearOne id => clearTask tasks id
  | .clearAll => clearAllTasks tasks

/-- Run a sequence of operations. -/
def runOps (tasks : List Task) (ops : List Op) : List Task :=
  ops.foldl applyOp tasks

/-- The id an operation enqueues under, when it is an enqueue. -/
def enqueueId : Op → Option String
  | .enqueue resp _ _ _ _ => some resp.task_id
  | _ => none

/-- No operation in the list enqueues a job under the id `j`. -/
def NoEnqueue (j : String) (ops : List Op) : Prop :=
  ∀ op ∈ ops, enqueueId op ≠ some j

instance (j : String) (ops : List Op) : Decidable (NoEnqueue j ops) := by
  unfold NoEnqueue; infer_instance

/-- Every entry under the id `j` has progress exactly 100. -/
def JDone (j : String) (ts : List Task) : Prop :=
  ∀ t ∈ ts, t.task_id = j → t.progress = 100

/-- A concrete job of the progress-variant registry. -/
def mkJob (id : String) (st : Status) (pr : ℚ) : Task :=
  { task_id := id
    status := st
    fileName := id ++ ".mp3"
    progress := pr
    service := "svc"
    format := "mp3" }

theorem jdone_applyOp (j : String) (ts : List Task) (op : Op)
    (hop : enqueueId op ≠ some j) (h : JDone j ts) :
    JDone j (applyOp ts op) := by
  cases op with
  | tick incs =>
      intro t' ht' hid
      simp only [applyOp, progressTick] at ht'
      rcases List.mem_map.mp ht' with ⟨t, ht, rfl⟩
      simp only [tickTask] at hid ⊢
      by_cases hcond : t.status = Status.processing ∧ t.progress < 95
      · exfalso
        have h100 := h t ht (by simpa [if_pos hcond] using hid)
        exact absurd (h100 ▸ hcond.2) (by norm_num)
      · simp only [if_neg hcond] at hid ⊢
        exact h t ht hid
  | final fin =>
      by_cases hne : fin.status ≠ Status.processing
      · simp only [applyOp, applyStatus, if_pos hne]
        intro t' ht' hid
        rcases List.mem_map.mp ht' with ⟨t, ht, rfl⟩
        by_cases hc : t.task_id = fin.task_id
        · simp only [if_pos hc] at hid ⊢
          by_cases hcompl : fin.status = Status.completed
          · simp [hcompl]
          · simp only [if_neg hcompl]
            exact h t ht hid
        · simp only [if_neg hc] at hid ⊢
          exact h t ht hid
      · simp only [applyOp, applyStatus, if_neg hne]
        exact h
  | enqueue resp f sv fm th =>
      have hne : resp.task_id ≠ j := by simpa [enqueueId] using hop
      intro t' ht' hid
      simp only [applyOp, addTask, List.mem_cons] at ht'
      rcases ht' with rfl | ht
      · exact absurd hid hne
      · exact h t' ht hid
  | clearOne id =>
      intro t' ht' hid
      simp only [applyOp, clearTask] at ht'
      exact h t' (List.mem_of_mem_filter ht') hid
  | clearAll =>
      intro t' ht' hid
      simp only [applyOp, clearAllTasks] at ht'
      exact h t' (List.mem_of_mem_filter ht') hid

theorem jdone_runOps (j : String) :
    ∀ (ops : List Op) (ts : List Task), JDone j ts → NoEnqueue j ops →
      JDone j (runOps ts ops)
  | [], _, h, _ => h
  | op :: rest, ts, h, hno =>
      jdone_runOps j rest (applyOp ts op)
        (jdone_applyOp j ts op (hno op (List.mem_cons_self op rest)) h)
        (fun o ho => hno o (List.mem_cons_of_mem op ho))

theorem jdone_after_completed (ts : List Task) (fin : DC.ProcResponse)
    (hc : fin.status = Status.completed) :
    JDone fin.task_id (applyStatus ts fin) := by
  have hne : fin.status ≠ Status.processing := by rw [hc]; simp
  intro t' ht' hid
  simp only [applyStatus, if_pos hne] at ht'
  rcases List.mem_map.mp ht' with ⟨t, ht, rfl⟩
  by_cases hcu : t.task_id = fin.task_id
  · simp [if_pos hcu, hc]
  · simp only [if_neg hcu] at hid
    exact absurd hid hcu

end Sodalite.P1

namespace Sodalite.P1

/-- C7: when a poll reconciles a job to outcome `completed`, its
progress estimate becomes exactly 100 at that transition and every entry
under that job's id keeps progress 100 through any further sequence of
registry operations (that does not enqueue a fresh job under the same
id); and the synthetic per-tick advance touches only jobs still in
outcome `processing`, never decreases progress and never raises it above
95 (when it changes progress at all, the result is at most 95). -/
theorem c7_completed_progress_hundred :
    (∀ (ts : List Task) (fin : DC.ProcResponse),
      fin.status = Status.completed →
      ∀ t ∈ applyStatus ts fin, t.task_id = fin.task_id →
        t.progress = 100) ∧
    (∀ (ts : List Task) (fin : DC.ProcResponse) (ops : List Op),
      fin.status = Status.completed → NoEnqueue fin.task_id ops →
      ∀ t ∈ runOps (applyStatus ts fin) ops, t.task_id = fin.task_id →
        t.progress = 100) ∧
    (∀ (inc : ℚ) (t : Task), 0 ≤ inc →
      (t.status ≠ Status.processing → tickTask inc t = t) ∧
      t.progress ≤ (tickTask inc t).progress ∧
      ((tickTask inc t).progress ≤ 95 ∨
        (tickTask inc t).progress = t.progress)) := by
  refine ⟨fun ts fin hc => jdone_after_completed ts fin hc,
    fun ts fin ops hc hno =>
      jdone_runOps fin.task_id ops (applyStatus ts fin)
        (jdone_after_completed ts fin hc) hno,
    fun inc t hinc => ?_⟩
  by_cases hcond : t.status = Status.processing ∧ t.progress < 95
  · refine ⟨fun hst => absurd hcond.1 hst, ?_, ?_⟩
    · simp only [tickTask, if_pos hcond]
      exact le_min (by linarith) (le_of_lt hcond.2)
    · left
      simp only [tickTask, if_pos hcond]
      exact min_le_right _ _
  · simp [tickTask, if_neg hcond]

/-- Witness for `c7_completed_progress_hundred`: a job at progress 40 is
reconciled to `completed`, then a progress tick with increment 3 runs —
its progress is exactly 100 afterwards; and a tick at increment 3 on a
processing job at 40 advances it without decreasing or passing 95. -/
theorem c7_completed_progress_hundred_witness :
    (∀ t ∈ runOps
        (applyStatus [mkJob "j" Status.processing 40]
          { task_id := "j", status := Status.completed,
            download_url := some "X" })
        [Op.tick (fun _ => 3)],
      t.task_id = "j" → t.progress = 100) ∧
    ((mkJob "j" Status.processing 40).progress ≤
        (tickTask 3 (mkJob "j" Status.processing 40)).progress ∧
      ((tickTask 3 (mkJob "j" Status.processing 40)).progress ≤ 95 ∨
        (tickTask 3 (mkJob "j" Status.processing 40)).progress =
          (mkJob "j" Status.processing 40).progress)) :=
  ⟨c7_completed_progress_hundred.2.1 [mkJob "j" Status.processing 40]
      { task_id := "j", status := Status.completed, download_url := some "X" }
      [Op.tick (fun _ => 3)] rfl (by decide),
    (c7_completed_progress_hundred.2.2 3 (mkJob "j" Status.processing 40)
      (by norm_num)).2⟩

end Sodalite.P1
